import Mathlib

/-!
Shallow embedding of the numeric core of the Springboard notebooks and proofs
about it.  The first part models the API data-wrangling notebook
(`create_stock_price_dict`, the price-difference and closing-difference
computations and the hand-written `median`); the second part models the
frequentist-inference notebook (confidence-interval cells and the pooled
two-sample t-test cells).  Observations are embedded as exact rationals where
the computations are sort/arithmetic only, and as real numbers where square
roots and the Student's-t distribution enter.  The external scipy primitives
(`t.cdf`, `t.ppf`) are taken as function parameters.
-/

namespace Springboard

/-- A JSON cell of the Quandl payload: a string, a number, or Python `None`. -/
inductive Cell where
  | str (s : String)
  | num (q : ℚ)
  | null
deriving DecidableEq

/-- Python dict lookup for a dict built by `dict(zip(names, vals))`: when a key
occurs several times the last binding wins, so the association list is searched
from the right. -/
def dictGet (k : String) (ps : List (String × Cell)) : Option Cell :=
  ps.reverse.lookup k

/-- One pass of the loop body of `create_stock_price_dict` for a single
`stock_day` row: `current_day_prices = dict(zip(column_names, stock_day))`, the
row is kept only when `current_day_prices['Open'] is not None`, and the `Date`
entry is popped before the record is stored under its date.  The outer `none`
models the `KeyError` raised when the row has no `Open` key at all; the inner
`none` models a skipped (holiday) row. -/
def processDay (columnNames : List String) (stockDay : List Cell) :
    Option (Option (Cell × List (String × Cell))) :=
  let currentDayPrices := columnNames.zip stockDay
  (dictGet "Open" currentDayPrices).map (fun c =>
    if c = Cell.null then none
    else
      let currentDate := (dictGet "Date" currentDayPrices).getD Cell.null
      some (currentDate, currentDayPrices.filter (fun p => !(p.1 == "Date"))))

/-- The notebook's `create_stock_price_dict`, its `for stock_day in ...` loop
embedded by recursion over the rows.  The Python dict keyed by date is
embedded as the list of its (date, record) insertions in loop order; `none`
models the function raising.  A claim proved for every entry of this list in
particular holds for every value of the Python dict, whose values are a
subset of the records produced here. -/
def create_stock_price_dict (columnNames : List String) :
    List (List Cell) → Option (List (Cell × List (String × Cell)))
  | [] => some []
  | row :: rest =>
      (processDay columnNames row).bind (fun o =>
        (create_stock_price_dict columnNames rest).map (fun acc => o.toList ++ acc))

/-- The fields of one day's record that the descriptive-statistics cells read:
`daily_prices['High']`, `daily_prices['Low']`, `daily_prices['Close']`. -/
structure DailyRecord where
  high : ℚ
  low : ℚ
  close : ℚ
deriving DecidableEq

/-- The notebook's `price_differences` list comprehension:
`[ daily_prices['High'] - daily_prices['Low'] for daily_prices in ... ]`. -/
def price_differences (records : List DailyRecord) : List ℚ :=
  records.map (fun r => r.high - r.low)

/-- The notebook's validation print `min(price_differences) >= 0`.  Python's
`min` raises on an empty list, modelled by `none`. -/
def rangeCheck (records : List DailyRecord) : Option Bool :=
  (price_differences records).min?.map (fun m => decide (0 ≤ m))

/-- Modelled from the spec: the intra-day range computation of
`TimeSeriesDeltas` as the spec words it, reporting a `DataIntegrityError`
instead of producing a negative range.  The error machinery does not exist in
the notebook; this definition is stated only to be compared with
`price_differences`. -/
inductive DataIntegrityError where
  | lowAboveHigh
deriving DecidableEq

/-- Modelled from the spec: intra-day ranges with the invariant `High ≥ Low`
enforced by a `DataIntegrityError` rather than clamping. -/
def spec_intraday_ranges (records : List DailyRecord) :
    Except DataIntegrityError (List ℚ) :=
  if records.all (fun r => r.low ≤ r.high) then
    Except.ok (price_differences records)
  else
    Except.error DataIntegrityError.lowAboveHigh

/-- The closing prices extracted from the records:
`[ daily_prices['Close'] for daily_prices in ... ]`. -/
def closing_prices (records : List DailyRecord) : List ℚ :=
  records.map (fun r => r.close)

/-- The notebook's `closing_differences` comprehension on a price list:
`[ abs(a - b) for a, b in zip(closing_prices[1:], closing_prices[:-1]) ]`. -/
def closing_differences_of (closing : List ℚ) : List ℚ :=
  List.zipWith (fun a b => |a - b|) closing.tail closing.dropLast

/-- `closing_differences` as computed by the notebook from the daily records. -/
def closing_differences (records : List DailyRecord) : List ℚ :=
  closing_differences_of (closing_prices records)

/-- The notebook's hand-written `median`.  In the source `sorted_list = x`
aliases the caller's list and `sorted_list.sort()` sorts that list in place, so
the embedding returns the median together with the state of the caller's list
after the call (`list.sort()` is a stable ascending sort, embedded as
insertion sort).  Python's `int((l-1)/2)` and `int(l/2)` agree with natural
division here.  Indexing is embedded with `getD`; the out-of-range default is
never reached on a non-empty list, and on the empty list the source raises
`IndexError`, which every claim's non-empty precondition rules out. -/
def median (x : List ℚ) : ℚ × List ℚ :=
  let sorted_list := x.insertionSort (· ≤ ·)
  let l := sorted_list.length
  if l % 2 = 1 then
    (sorted_list.getD ((l - 1) / 2) 0, sorted_list)
  else
    ((sorted_list.getD (l / 2 - 1) 0 + sorted_list.getD (l / 2) 0) / 2, sorted_list)

noncomputable section

/-- pandas `Series.mean()`: the sum of the values divided by their count. -/
def seriesMean (xs : List ℝ) : ℝ := xs.sum / xs.length

/-- pandas `Series.std()`: the sample standard deviation with the n−1
denominator (pandas default `ddof=1`). -/
def seriesStd (xs : List ℝ) : ℝ :=
  Real.sqrt ((xs.map (fun x => (x - seriesMean xs) ^ 2)).sum / ((xs.length : ℝ) - 1))

/-- The notebook cell `t_star = t.ppf(.975, df=n-1)`.  The Student's-t quantile
function `t.ppf` is the external scipy primitive, passed as a parameter taking
the cumulative probability and the degrees of freedom. -/
def t_star (ppf : ℝ → ℝ → ℝ) (n : ℕ) : ℝ := ppf 0.975 ((n : ℝ) - 1)

/-- The notebook cells computing the confidence interval:
`se = std / np.sqrt(n)`, `m = t_star * se`, `c_min, c_max = x_bar - m, x_bar + m`. -/
def c_interval (ppf : ℝ → ℝ → ℝ) (xbar s : ℝ) (n : ℕ) : ℝ × ℝ :=
  let se := s / Real.sqrt n
  let m := t_star ppf n * se
  (xbar - m, xbar + m)

/-- ConfidenceInterval as the spec words it: `se = s / sqrt n`, critical value
`t*` the Student's-t quantile with `n − 1` degrees of freedom at cumulative
probability `1 − (1−c)/2`, two-sided result `(x̄ − t*·se, x̄ + t*·se)`.  Stated
from the spec for comparison with the notebook cells. -/
def spec_confidence_interval (ppf : ℝ → ℝ → ℝ) (xbar s : ℝ) (n : ℕ) (c : ℝ) : ℝ × ℝ :=
  let se := s / Real.sqrt n
  let tstar := ppf (1 - (1 - c) / 2) ((n : ℝ) - 1)
  (xbar - tstar * se, xbar + tstar * se)

/-- The notebook's pooled standard deviation
`s_p = np.sqrt((((n_0 - 1) * (s_0 ** 2)) + ((n_1 - 1) * (s_1 ** 2))) / (n_0 + n_1 - 2))`
where `n_i`, `s_i` are the group sizes and pandas sample standard deviations. -/
def s_p (a b : List ℝ) : ℝ :=
  Real.sqrt ((((a.length : ℝ) - 1) * seriesStd a ^ 2 + ((b.length : ℝ) - 1) * seriesStd b ^ 2)
    / ((a.length : ℝ) + (b.length : ℝ) - 2))

/-- The notebook's `t_manual = (xbar_0 - xbar_1)/(s_p * np.sqrt(1/n_0 + 1/n_1))`. -/
def t_manual (a b : List ℝ) : ℝ :=
  (seriesMean a - seriesMean b) /
    (s_p a b * Real.sqrt (1 / (a.length : ℝ) + 1 / (b.length : ℝ)))

/-- The notebook's `df = n_0 + n_1 - 2`. -/
def df_manual (a b : List ℝ) : ℝ := (a.length : ℝ) + (b.length : ℝ) - 2

/-- The notebook's `p_manual = 2 * t.cdf(t_manual, df=df)`.  The Student's-t
cumulative distribution function `t.cdf` is the external scipy primitive,
passed as a parameter `F` taking the degrees of freedom and the point.  Note
the source applies `F` to `t_manual` itself, with no absolute value. -/
def p_manual (F : ℝ → ℝ → ℝ) (a b : List ℝ) : ℝ :=
  2 * F (df_manual a b) (t_manual a b)

/-- The spec's pooled standard deviation
`s_p = sqrt( ((n₀−1)·s₀² + (n₁−1)·s₁²) / (n₀+n₁−2) )` as a function of the
symbols it is written in. -/
def spec_pooled_std (n0 n1 s0 s1 : ℝ) : ℝ :=
  Real.sqrt (((n0 - 1) * s0 ^ 2 + (n1 - 1) * s1 ^ 2) / (n0 + n1 - 2))

/-- The spec's statistic `t = (x̄₀ − x̄₁) / (s_p · sqrt(1/n₀ + 1/n₁))` as a
function of the symbols it is written in. -/
def spec_t_statistic (n0 n1 x0 x1 s0 s1 : ℝ) : ℝ :=
  (x0 - x1) / (spec_pooled_std n0 n1 s0 s1 * Real.sqrt (1 / n0 + 1 / n1))

/-- Modelled from the spec: `scipy.stats.ttest_ind`, the reference
two-independent-sample equal-variance t-test of a standard statistical
library, which is not code of this repository.  It computes the same pooled
statistic and the two-sided p-value `2 · F_t(−|t|; df)`. -/
def ttest_ind (F : ℝ → ℝ → ℝ) (a b : List ℝ) : ℝ × ℝ :=
  (t_manual a b, 2 * F (df_manual a b) (-|t_manual a b|))

/-- The strictly increasing odd map `x ↦ x / (1 + |x|)`, with values in
(−1, 1); the shape from which the concrete distribution function used by the
witnesses is built. -/
def boundedRatio (x : ℝ) : ℝ := x / (1 + |x|)

/-- A concrete strictly monotone, symmetric cumulative distribution function,
used to instantiate the abstract Student's-t CDF parameter in witnesses. -/
def demoCdf (_d x : ℝ) : ℝ := 1 / 2 + boundedRatio x / 2

end

/-! ### Helper lemmas -/

theorem lookup_filter_not_date {k : String} (hk : k ≠ "Date")
    (l : List (String × Cell)) :
    (l.filter (fun p => !(p.1 == "Date"))).lookup k = l.lookup k := by
  induction l with
  | nil => rfl
  | cons a l ih =>
    obtain ⟨ka, va⟩ := a
    by_cases hd : ka = "Date"
    · subst hd
      have hke : (k == "Date") = false := beq_eq_false_iff_ne.mpr hk
      simp [List.filter_cons, List.lookup_cons, hke, ih]
    · have hde : (ka == "Date") = false := beq_eq_false_iff_ne.mpr hd
      by_cases hka : k = ka
      · subst hka
        simp [List.filter_cons, List.lookup_cons, hde]
      · have hkae : (k == ka) = false := beq_eq_false_iff_ne.mpr hka
        simp [List.filter_cons, List.lookup_cons, hde, hkae, ih]

theorem lookup_eq_none_of_keys_ne {k : String} (l : List (String × Cell))
    (h : ∀ p ∈ l, p.1 ≠ k) : l.lookup k = none := by
  induction l with
  | nil => rfl
  | cons a l ih =>
    have ha : a.1 ≠ k := h a (List.mem_cons_self a l)
    have hae : (k == a.1) = false := beq_eq_false_iff_ne.mpr (fun he => ha he.symm)
    obtain ⟨ka, va⟩ := a
    simp only [List.lookup_cons, hae]
    exact ih (fun p hp => h p (List.mem_cons_of_mem _ hp))

theorem dictGet_filter_not_date {k : String} (hk : k ≠ "Date")
    (l : List (String × Cell)) :
    dictGet k (l.filter (fun p => !(p.1 == "Date"))) = dictGet k l := by
  unfold dictGet
  rw [← List.filter_reverse]
  exact lookup_filter_not_date hk l.reverse

theorem dictGet_date_of_filtered (l : List (String × Cell)) :
    dictGet "Date" (l.filter (fun p => !(p.1 == "Date"))) = none := by
  unfold dictGet
  apply lookup_eq_none_of_keys_ne
  intro p hp
  have hp2 := (List.mem_filter.mp (List.mem_reverse.mp hp)).2
  simpa [beq_eq_false_iff_ne] using hp2

theorem foldl_min_le_init (l : List ℚ) (a : ℚ) : l.foldl min a ≤ a := by
  induction l generalizing a with
  | nil => simp
  | cons b l ih =>
    simpa using le_trans (ih (min a b)) (min_le_left a b)

theorem foldl_min_le_mem {y : ℚ} {l : List ℚ} (a : ℚ) (hy : y ∈ l) :
    l.foldl min a ≤ y := by
  induction l generalizing a with
  | nil => cases hy
  | cons b l ih =>
    rcases List.mem_cons.mp hy with rfl | hy2
    · simpa using le_trans (foldl_min_le_init l (min a y)) (min_le_right a y)
    · simpa using ih (min a b) hy2

/-! ### Claims about the API notebook -/

/-- C2: the hand-written `median` returns the median but, contrary to the
claim, does not leave the caller's sequence untouched: `sorted_list = x`
aliases the input and `sorted_list.sort()` sorts it in place.  On the input
[3, 1, 2] the returned value is the correct median 2, yet the caller's list
afterwards is [1, 2, 3], not the original [3, 1, 2]. -/
theorem median_mutates_caller_list :
    (median [3, 1, 2]).1 = 2 ∧ (median [3, 1, 2]).2 = [1, 2, 3] ∧
      ([1, 2, 3] : List ℚ) ≠ [3, 1, 2] := by
  refine ⟨by decide, by decide, by decide⟩

/-- C9: for a non-empty sample, `median` returns the middle element of any
sorted permutation of the input for odd count, and the arithmetic mean of the
two middle elements for even count; in particular median [1,2,3,4] = 5/2. -/
theorem median_value_of_sorted_perm (x : List ℚ) (hx : x ≠ []) (s : List ℚ)
    (hs : s.Perm x) (hsort : s.Sorted (· ≤ ·)) :
    ((x.length % 2 = 1 → (median x).1 = s.getD ((x.length - 1) / 2) 0) ∧
      (x.length % 2 = 0 →
        (median x).1 = (s.getD (x.length / 2 - 1) 0 + s.getD (x.length / 2) 0) / 2)) ∧
    (median [1, 2, 3, 4]).1 = 5 / 2 := by
  have hsl : s = x.insertionSort (· ≤ ·) :=
    List.eq_of_perm_of_sorted (hs.trans (List.perm_insertionSort _ x).symm) hsort
      (List.sorted_insertionSort _ x)
  have hlen : (x.insertionSort (· ≤ ·)).length = x.length :=
    (List.perm_insertionSort _ x).length_eq
  constructor
  · constructor
    · intro hodd
      simp only [median, hlen, hodd, if_pos, hsl]
    · intro heven
      have hne : ¬ x.length % 2 = 1 := by omega
      simp only [median, hlen, hne, if_false, hsl]
  · norm_num [median, List.insertionSort, List.orderedInsert]

/-- C7 counterexample: on a record with Low > High the notebook's
`price_differences` silently computes the negative range −1 and the subsequent
`min(...) >= 0` check merely evaluates to False; no `DataIntegrityError` is
raised, unlike the spec-modelled computation, which reports the error. -/
theorem intraday_range_no_error_raised :
    price_differences [⟨1, 2, 0⟩] = [-1] ∧
      rangeCheck [⟨1, 2, 0⟩] = some false ∧
      spec_intraday_ranges [⟨1, 2, 0⟩] =
        Except.error DataIntegrityError.lowAboveHigh := by
  refine ⟨by norm_num [price_differences], ?_, ?_⟩
  · norm_num [rangeCheck, price_differences, List.min?]
  · norm_num [spec_intraday_ranges, List.all_cons, List.all_nil]

/-- C7 amended: for well-formed input (every record has Low ≤ High) every
intra-day range is ≥ 0; when some record has Low > High the code continues,
the output list contains a negative value, and the notebook's
`min(price_differences) >= 0` validation evaluates to False — no error is
raised and nothing is clamped. -/
theorem intraday_range_nonneg_or_check_false :
    (∀ rs : List DailyRecord, (∀ r ∈ rs, r.low ≤ r.high) →
      ∀ y ∈ price_differences rs, 0 ≤ y) ∧
    (∀ rs : List DailyRecord, (∃ r ∈ rs, r.high < r.low) →
      (∃ y ∈ price_differences rs, y < 0) ∧ rangeCheck rs = some false) := by
  constructor
  · intro rs h y hy
    obtain ⟨r, hr, rfl⟩ := List.mem_map.mp hy
    have := h r hr
    linarith
  · intro rs hvr
    obtain ⟨r, hr, hv⟩ := hvr
    have hy : r.high - r.low ∈ price_differences rs := List.mem_map_of_mem _ hr
    have hyneg : r.high - r.low < 0 := by linarith
    refine ⟨⟨_, hy, hyneg⟩, ?_⟩
    rcases hpd : price_differences rs with _ | ⟨z, zs⟩
    · rw [hpd] at hy; cases hy
    · rw [hpd] at hy
      have hmin : (z :: zs).min? = some (zs.foldl min z) := rfl
      have hle : zs.foldl min z ≤ r.high - r.low := by
        rcases List.mem_cons.mp hy with heq | hmem
        · rw [← heq] at *; exact foldl_min_le_init zs _
        · exact foldl_min_le_mem z hmem
      have hneg : zs.foldl min z < 0 := lt_of_le_of_lt hle hyneg
      rw [rangeCheck, hpd, hmin]
      simp [hneg.not_le]

/-- C8: the day-over-day sequence is the absolute successive difference of the
closing prices in chronological order, has length N−1 (empty when N ≤ 1), and
on the close sequence [10, 12, 9, 15] equals [2, 3, 6] with maximum 6. -/
theorem closing_differences_spec :
    (∀ xs : List ℚ, (closing_differences_of xs).length = xs.length - 1) ∧
    (∀ xs : List ℚ, ∀ i, i + 1 < xs.length →
      (closing_differences_of xs).getD i 0 = |xs.getD (i + 1) 0 - xs.getD i 0|) ∧
    (∀ xs : List ℚ, xs.length ≤ 1 → closing_differences_of xs = []) ∧
    (∀ rs : List DailyRecord,
      closing_differences rs = closing_differences_of (closing_prices rs)) ∧
    closing_differences_of [10, 12, 9, 15] = [2, 3, 6] ∧
    (closing_differences_of [10, 12, 9, 15]).max? = some 6 := by
  refine ⟨?_, ?_, ?_, fun rs => rfl, by norm_num [closing_differences_of],
    by norm_num [closing_differences_of, List.max?]⟩
  · intro xs
    simp [closing_differences_of, List.length_zipWith]
  · intro xs i hi
    have h1 : i < xs.length - 1 := by omega
    have h0 : i < xs.length := by omega
    simp only [closing_differences_of, List.getD_eq_getElem?_getD,
      List.getElem?_zipWith, List.getElem?_tail, List.getElem?_dropLast,
      if_pos h1, List.getElem?_eq_getElem hi, List.getElem?_eq_getElem h0,
      Option.getD_some]
  · intro xs h
    rcases xs with _ | ⟨a, _ | ⟨b, t⟩⟩
    · rfl
    · rfl
    · simp at h

/-- C10: every (date, record) entry produced by `create_stock_price_dict` has
a present, non-null Open value and no Date field: rows whose Open is absent
are excluded, and the Date entry is popped before the record is stored. -/
theorem create_stock_price_dict_invariant (columnNames : List String)
    (data : List (List Cell)) (d : List (Cell × List (String × Cell)))
    (h : create_stock_price_dict columnNames data = some d) :
    ∀ p ∈ d, (∃ c, dictGet "Open" p.2 = some c ∧ c ≠ Cell.null) ∧
      dictGet "Date" p.2 = none := by
  induction data generalizing d with
  | nil =>
    have hd : d = [] := by simpa [create_stock_price_dict] using h.symm
    subst hd
    intro p hp
    cases hp
  | cons row rest ih =>
    rw [create_stock_price_dict] at h
    rcases hrow : processDay columnNames row with _ | o
    · rw [hrow] at h
      cases h
    · rw [hrow, Option.some_bind] at h
      rcases hrest : create_stock_price_dict columnNames rest with _ | acc
      · rw [hrest] at h
        cases h
      · rw [hrest] at h
        have hd : d = o.toList ++ acc := by simpa using h.symm
        subst hd
        have ihr := ih acc hrest
        intro p hp
        rcases List.mem_append.mp hp with hhead | hmem
        · -- the head entry comes from processDay on this row
          rcases o with _ | e
          · cases hhead
          · have hpe : p = e := by simpa using hhead
            subst hpe
            rw [processDay] at hrow
            rcases hopen : dictGet "Open" (columnNames.zip row) with _ | c
            · rw [hopen] at hrow
              cases hrow
            · rw [hopen] at hrow
              by_cases hc : c = Cell.null
              · simp [hc] at hrow
              · simp [hc] at hrow
                rw [← hrow]
                dsimp only
                constructor
                · refine ⟨c, ?_, hc⟩
                  rw [dictGet_filter_not_date (by decide) _]
                  exact hopen
                · exact dictGet_date_of_filtered _
        · exact ihr p hmem

/-- C9 witness: the characterization applied to the concrete input [2, 1]
with its sorted permutation [1, 2]. -/
theorem median_value_of_sorted_perm_witness :
    ((([2, 1] : List ℚ).length % 2 = 1 →
      (median [2, 1]).1 = ([1, 2] : List ℚ).getD ((([2, 1] : List ℚ).length - 1) / 2) 0) ∧
      (([2, 1] : List ℚ).length % 2 = 0 →
        (median [2, 1]).1 = (([1, 2] : List ℚ).getD (([2, 1] : List ℚ).length / 2 - 1) 0 +
          ([1, 2] : List ℚ).getD (([2, 1] : List ℚ).length / 2) 0) / 2)) ∧
    (median [1, 2, 3, 4]).1 = 5 / 2 :=
  median_value_of_sorted_perm [2, 1] (by decide) [1, 2] (by decide) (by decide)

/-- C7 witness: the amended statement applied to a well-formed record and to a
record with Low > High. -/
theorem intraday_range_nonneg_or_check_false_witness :
    (∀ y ∈ price_differences [⟨2, 1, 7⟩], 0 ≤ y) ∧
    ((∃ y ∈ price_differences [⟨3, 4, 0⟩], y < 0) ∧
      rangeCheck [⟨3, 4, 0⟩] = some false) :=
  ⟨intraday_range_nonneg_or_check_false.1 [⟨2, 1, 7⟩] (by decide),
    intraday_range_nonneg_or_check_false.2 [⟨3, 4, 0⟩] ⟨⟨3, 4, 0⟩, by decide, by decide⟩⟩

/-- C8 witness: the pointwise characterization applied at index 1 of the
close sequence [10, 12, 9, 15], and the length law at [7]. -/
theorem closing_differences_spec_witness :
    (closing_differences_of [10, 12, 9, 15]).getD 1 0 =
      |([10, 12, 9, 15] : List ℚ).getD 2 0 - ([10, 12, 9, 15] : List ℚ).getD 1 0| ∧
    (closing_differences_of [7]).length = ([7] : List ℚ).length - 1 :=
  ⟨closing_differences_spec.2.1 [10, 12, 9, 15] 1 (by norm_num),
    closing_differences_spec.1 [7]⟩

/-- C10 witness: the invariant at a concrete dataset with one valid day and
one holiday row whose Open is None. -/
theorem create_stock_price_dict_invariant_witness :
    create_stock_price_dict ["Date", "Open", "Close"]
      [[Cell.str "2017-01-02", Cell.num 3, Cell.num 5],
        [Cell.str "2017-01-03", Cell.null, Cell.num 4]] =
      some [(Cell.str "2017-01-02", [("Open", Cell.num 3), ("Close", Cell.num 5)])] ∧
    (∀ p ∈ [(Cell.str "2017-01-02", [("Open", Cell.num 3), ("Close", Cell.num 5)])],
      (∃ c, dictGet "Open" p.2 = some c ∧ c ≠ Cell.null) ∧
        dictGet "Date" p.2 = none) :=
  ⟨by decide,
    create_stock_price_dict_invariant ["Date", "Open", "Close"]
      [[Cell.str "2017-01-02", Cell.num 3, Cell.num 5],
        [Cell.str "2017-01-03", Cell.null, Cell.num 4]]
      [(Cell.str "2017-01-02", [("Open", Cell.num 3), ("Close", Cell.num 5)])]
      (by decide)⟩

/-! ### Helper lemmas for the frequentist notebook -/

theorem boundedRatio_strictMono : StrictMono boundedRatio := by
  intro x y hxy
  unfold boundedRatio
  have hx : (0:ℝ) < 1 + |x| := by positivity
  have hy : (0:ℝ) < 1 + |y| := by positivity
  rw [div_lt_div_iff hx hy]
  rcases le_or_lt 0 x with h0x | h0x
  · rw [abs_of_nonneg h0x, abs_of_nonneg (h0x.trans hxy.le)]
    nlinarith
  · rcases le_or_lt 0 y with h0y | h0y
    · rw [abs_of_neg h0x, abs_of_nonneg h0y]
      nlinarith [mul_nonneg (neg_nonneg.mpr h0x.le) h0y]
    · rw [abs_of_neg h0x, abs_of_neg h0y]
      nlinarith

theorem demoCdf_strictMono : ∀ d, StrictMono (demoCdf d) := by
  intro d a b hab
  unfold demoCdf
  have := boundedRatio_strictMono hab
  linarith

theorem demoCdf_symm : ∀ d x, demoCdf d (-x) = 1 - demoCdf d x := by
  intro d x
  unfold demoCdf boundedRatio
  rw [abs_neg, neg_div]
  ring

theorem seriesMean_ex1 : seriesMean [3, 5] = 4 := by
  norm_num [seriesMean]

theorem seriesMean_ex2 : seriesMean [0, 2] = 1 := by
  norm_num [seriesMean]

theorem seriesStd_ex1 : seriesStd [3, 5] = Real.sqrt 2 := by
  unfold seriesStd
  rw [seriesMean_ex1]
  norm_num

theorem seriesStd_ex2 : seriesStd [0, 2] = Real.sqrt 2 := by
  unfold seriesStd
  rw [seriesMean_ex2]
  norm_num

theorem s_p_ex : s_p [3, 5] [0, 2] = Real.sqrt 2 := by
  unfold s_p
  rw [seriesStd_ex1, seriesStd_ex2, Real.sq_sqrt (by norm_num : (0:ℝ) ≤ 2)]
  norm_num

theorem t_manual_ex : t_manual [3, 5] [0, 2] = 3 / Real.sqrt 2 := by
  unfold t_manual
  rw [seriesMean_ex1, seriesMean_ex2, s_p_ex]
  norm_num [Real.sqrt_one]

theorem t_manual_ex_pos : 0 < t_manual [3, 5] [0, 2] := by
  rw [t_manual_ex]
  exact div_pos (by norm_num) (Real.sqrt_pos.mpr (by norm_num))

theorem s_p_comm (a b : List ℝ) : s_p a b = s_p b a := by
  unfold s_p
  congr 1
  ring

theorem t_manual_swap (a b : List ℝ) : t_manual a b = - t_manual b a := by
  unfold t_manual
  rw [s_p_comm b a, add_comm (1 / (b.length : ℝ)) (1 / (a.length : ℝ))]
  ring

theorem seriesMean_ex3 : seriesMean [100, 200, 300] = 200 := by
  norm_num [seriesMean]

theorem seriesMean_ex4 : seriesMean [150, 250, 350, 450] = 300 := by
  norm_num [seriesMean]

theorem seriesStd_ex3 : seriesStd [100, 200, 300] = Real.sqrt 10000 := by
  unfold seriesStd
  rw [seriesMean_ex3]
  norm_num

theorem seriesStd_ex4 : seriesStd [150, 250, 350, 450] = Real.sqrt (50000 / 3) := by
  unfold seriesStd
  rw [seriesMean_ex4]
  norm_num

theorem s_p_ex2 : s_p [100, 200, 300] [150, 250, 350, 450] = Real.sqrt 14000 := by
  unfold s_p
  rw [seriesStd_ex3, seriesStd_ex4, Real.sq_sqrt (by norm_num : (0:ℝ) ≤ 10000),
    Real.sq_sqrt (by norm_num : (0:ℝ) ≤ 50000 / 3)]
  norm_num

theorem t_manual_ex2_neg : t_manual [100, 200, 300] [150, 250, 350, 450] < 0 := by
  unfold t_manual
  rw [seriesMean_ex3, seriesMean_ex4, s_p_ex2]
  apply div_neg_of_neg_of_pos
  · norm_num
  · apply mul_pos (Real.sqrt_pos.mpr (by norm_num))
    apply Real.sqrt_pos.mpr
    norm_num

theorem sumsq_div_nonneg (a : List ℝ) (ha : 2 ≤ a.length) :
    0 ≤ (a.map (fun x => (x - seriesMean a) ^ 2)).sum / ((a.length : ℝ) - 1) := by
  apply div_nonneg
  · apply List.sum_nonneg
    intro y hy
    obtain ⟨x, _, rfl⟩ := List.mem_map.mp hy
    positivity
  · have h2 : (2:ℝ) ≤ (a.length : ℝ) := by exact_mod_cast ha
    linarith

/-! ### Claims about the frequentist notebook -/

/-- C1: the notebook computes `p_manual = 2 * t.cdf(t_manual, df)` with no
absolute value, contrary to the claimed `2 · F_t(−|t|; df)`.  For the groups
[3, 5] and [0, 2] the statistic is positive, the code's p-value exceeds 1, and
it differs from the claimed expression — for every CDF `F` that is strictly
monotone and symmetric, as the Student's-t CDF is. -/
theorem p_manual_exceeds_one (F : ℝ → ℝ → ℝ)
    (hmono : ∀ d, StrictMono (F d)) (hsym : ∀ d x, F d (-x) = 1 - F d x) :
    1 < p_manual F [3, 5] [0, 2] ∧
    p_manual F [3, 5] [0, 2] ≠
      2 * F (df_manual [3, 5] [0, 2]) (-|t_manual [3, 5] [0, 2]|) := by
  have hzero : ∀ d, F d 0 = 1 / 2 := by
    intro d
    have h := hsym d 0
    rw [neg_zero] at h
    linarith
  have htpos := t_manual_ex_pos
  constructor
  · have hlt := (hmono (df_manual [3, 5] [0, 2])) htpos
    rw [hzero] at hlt
    unfold p_manual
    linarith
  · rw [abs_of_pos htpos]
    have hlt : F (df_manual [3, 5] [0, 2]) (-t_manual [3, 5] [0, 2]) <
        F (df_manual [3, 5] [0, 2]) (t_manual [3, 5] [0, 2]) :=
      (hmono _) (by linarith)
    unfold p_manual
    intro heq
    linarith

/-- C1 witness: the hypotheses of `p_manual_exceeds_one` instantiated at the
concrete strictly monotone symmetric CDF `demoCdf`. -/
theorem p_manual_exceeds_one_witness :
    1 < p_manual demoCdf [3, 5] [0, 2] ∧
    p_manual demoCdf [3, 5] [0, 2] ≠
      2 * demoCdf (df_manual [3, 5] [0, 2]) (-|t_manual [3, 5] [0, 2]|) :=
  p_manual_exceeds_one demoCdf demoCdf_strictMono demoCdf_symm

/-- C3: swapping the two groups does negate the statistic, for all inputs,
but contrary to the claim it does not leave the code's p-value unchanged:
`2·F(t)` and `2·F(−t)` differ whenever `t ≠ 0`, as at the groups [3, 5] and
[0, 2] — for every strictly monotone CDF `F`. -/
theorem t_swap_negates_p_not_invariant (F : ℝ → ℝ → ℝ)
    (hmono : ∀ d, StrictMono (F d)) :
    (∀ a b : List ℝ, t_manual a b = - t_manual b a) ∧
    p_manual F [3, 5] [0, 2] ≠ p_manual F [0, 2] [3, 5] := by
  refine ⟨t_manual_swap, ?_⟩
  have hdf : df_manual [3, 5] [0, 2] = df_manual [0, 2] [3, 5] := by
    unfold df_manual
    ring
  unfold p_manual
  rw [t_manual_swap [0, 2] [3, 5], ← hdf]
  have hlt : F (df_manual [3, 5] [0, 2]) (-t_manual [3, 5] [0, 2]) <
      F (df_manual [3, 5] [0, 2]) (t_manual [3, 5] [0, 2]) :=
    (hmono _) (by linarith [t_manual_ex_pos])
  intro heq
  linarith

/-- C3 witness: the hypothesis of `t_swap_negates_p_not_invariant`
instantiated at the concrete strictly monotone CDF `demoCdf`. -/
theorem t_swap_negates_p_not_invariant_witness :
    (∀ a b : List ℝ, t_manual a b = - t_manual b a) ∧
    p_manual demoCdf [3, 5] [0, 2] ≠ p_manual demoCdf [0, 2] [3, 5] :=
  t_swap_negates_p_not_invariant demoCdf demoCdf_strictMono

/-- C4: for groups with at least 2 observations each, the notebook's pooled
standard deviation, statistic and degrees of freedom are exactly the spec's
formulas, with the group standard deviations the n−1-denominator sample
standard deviations. -/
theorem two_sample_ttest_formulas (a b : List ℝ) (ha : 2 ≤ a.length)
    (hb : 2 ≤ b.length) :
    s_p a b = spec_pooled_std a.length b.length (seriesStd a) (seriesStd b) ∧
    t_manual a b = spec_t_statistic a.length b.length (seriesMean a)
      (seriesMean b) (seriesStd a) (seriesStd b) ∧
    df_manual a b = (a.length : ℝ) + (b.length : ℝ) - 2 ∧
    seriesStd a ^ 2 =
      (a.map (fun x => (x - seriesMean a) ^ 2)).sum / ((a.length : ℝ) - 1) ∧
    seriesStd b ^ 2 =
      (b.map (fun x => (x - seriesMean b) ^ 2)).sum / ((b.length : ℝ) - 1) :=
  ⟨rfl, rfl, rfl, Real.sq_sqrt (sumsq_div_nonneg a ha),
    Real.sq_sqrt (sumsq_div_nonneg b hb)⟩

/-- C4 witness: the formulas instantiated at the groups [3, 5] and [0, 2]. -/
theorem two_sample_ttest_formulas_witness :
    s_p [3, 5] [0, 2] = spec_pooled_std ([3, 5] : List ℝ).length
      ([0, 2] : List ℝ).length (seriesStd [3, 5]) (seriesStd [0, 2]) ∧
    t_manual [3, 5] [0, 2] = spec_t_statistic ([3, 5] : List ℝ).length
      ([0, 2] : List ℝ).length (seriesMean [3, 5]) (seriesMean [0, 2])
      (seriesStd [3, 5]) (seriesStd [0, 2]) ∧
    df_manual [3, 5] [0, 2] = (([3, 5] : List ℝ).length : ℝ) +
      (([0, 2] : List ℝ).length : ℝ) - 2 ∧
    seriesStd [3, 5] ^ 2 = (([3, 5] : List ℝ).map
      (fun x => (x - seriesMean [3, 5]) ^ 2)).sum /
      ((([3, 5] : List ℝ).length : ℝ) - 1) ∧
    seriesStd [0, 2] ^ 2 = (([0, 2] : List ℝ).map
      (fun x => (x - seriesMean [0, 2]) ^ 2)).sum /
      ((([0, 2] : List ℝ).length : ℝ) - 1) :=
  two_sample_ttest_formulas [3, 5] [0, 2] (by norm_num) (by norm_num)

/-- C5: the notebook's confidence-interval cells compute exactly the spec's
two-sided interval at confidence level 0.95 (the hard-coded 0.975 equals
1 − (1−0.95)/2), and at n = 1338, x̄ = 13270.42, s = 12110.01 the interval is
(12620.95, 13919.89) to within 1, given that the external quantile at 0.975
with 1337 degrees of freedom is 1.9617 to within 0.001. -/
theorem confidence_interval_matches_spec (ppf : ℝ → ℝ → ℝ)
    (happrox : |ppf 0.975 1337 - 1.9617| ≤ 0.001) :
    (∀ (xbar s : ℝ) (n : ℕ),
      c_interval ppf xbar s n = spec_confidence_interval ppf xbar s n 0.95) ∧
    |(c_interval ppf 13270.42 12110.01 1338).1 - 12620.95| ≤ 1 ∧
    |(c_interval ppf 13270.42 12110.01 1338).2 - 13919.89| ≤ 1 := by
  have hsq := Real.sq_sqrt (show (0:ℝ) ≤ 1338 by norm_num)
  have hnn := Real.sqrt_nonneg 1338
  have h1 : (36.57:ℝ) ≤ Real.sqrt 1338 := by nlinarith
  have h2 : Real.sqrt 1338 ≤ 36.58 := by nlinarith
  have hspos : (0:ℝ) < Real.sqrt 1338 := lt_of_lt_of_le (by norm_num) h1
  have hq := abs_le.mp happrox
  have hq1 : (1.9607:ℝ) ≤ ppf 0.975 1337 := by linarith [hq.1]
  have hq2 : ppf 0.975 1337 ≤ 1.9627 := by linarith [hq.2]
  have hseL : (331.05:ℝ) ≤ 12110.01 / Real.sqrt 1338 := by
    rw [le_div_iff hspos]
    nlinarith
  have hseU : 12110.01 / Real.sqrt 1338 ≤ 331.15 := by
    rw [div_le_iff hspos]
    nlinarith
  have hm1 : (1.9607:ℝ) * 331.05 ≤ ppf 0.975 1337 * (12110.01 / Real.sqrt 1338) :=
    mul_le_mul hq1 hseL (by norm_num) (by linarith)
  have hm2 : ppf 0.975 1337 * (12110.01 / Real.sqrt 1338) ≤ 1.9627 * 331.15 :=
    mul_le_mul hq2 hseU (by linarith) (by norm_num)
  have hrw1 : (c_interval ppf 13270.42 12110.01 1338).1 =
      13270.42 - ppf 0.975 1337 * (12110.01 / Real.sqrt 1338) := by
    simp only [c_interval, t_star]
    norm_num
  have hrw2 : (c_interval ppf 13270.42 12110.01 1338).2 =
      13270.42 + ppf 0.975 1337 * (12110.01 / Real.sqrt 1338) := by
    simp only [c_interval, t_star]
    norm_num
  refine ⟨?_, ?_, ?_⟩
  · intro xbar s n
    simp only [c_interval, spec_confidence_interval, t_star]
    norm_num
  · rw [hrw1, abs_le]
    constructor <;> nlinarith
  · rw [hrw2, abs_le]
    constructor <;> nlinarith

/-- C5 witness: the interval facts at the constant quantile function
returning 1.9617. -/
theorem confidence_interval_matches_spec_witness :
    (∀ (xbar s : ℝ) (n : ℕ),
      c_interval (fun _p _d => 1.9617) xbar s n =
        spec_confidence_interval (fun _p _d => 1.9617) xbar s n 0.95) ∧
    |(c_interval (fun _p _d => 1.9617) 13270.42 12110.01 1338).1 - 12620.95| ≤ 1 ∧
    |(c_interval (fun _p _d => 1.9617) 13270.42 12110.01 1338).2 - 13919.89| ≤ 1 :=
  confidence_interval_matches_spec (fun _p _d => 1.9617) (by norm_num)

/-- C6: the statistic of the manual computation always equals the library's,
and the p-values agree exactly at the spec's concrete scenario
A = [100, 200, 300], B = [150, 250, 350, 450] where the statistic is
negative; but for the groups [3, 5] and [0, 2] the statistic is positive and
the code's p-value differs from the library's by at least 1/250, far more
than the claimed 1e-9 tolerance — for every symmetric CDF `F` whose value at
the positive statistic exceeds 1/2 by at least 1/1000, as the Student's-t CDF
does. -/
theorem p_manual_vs_library (F : ℝ → ℝ → ℝ)
    (hsym : ∀ d x, F d (-x) = 1 - F d x)
    (hF : 1 / 2 + 1 / 1000 ≤ F (df_manual [3, 5] [0, 2]) (t_manual [3, 5] [0, 2])) :
    (∀ a b : List ℝ, (ttest_ind F a b).1 = t_manual a b) ∧
    p_manual F [100, 200, 300] [150, 250, 350, 450] =
      (ttest_ind F [100, 200, 300] [150, 250, 350, 450]).2 ∧
    1 / 250 ≤ |p_manual F [3, 5] [0, 2] - (ttest_ind F [3, 5] [0, 2]).2| := by
  refine ⟨fun a b => rfl, ?_, ?_⟩
  · unfold p_manual ttest_ind
    rw [abs_of_neg t_manual_ex2_neg, neg_neg]
  · unfold p_manual ttest_ind
    dsimp only
    rw [abs_of_pos t_manual_ex_pos]
    rw [hsym]
    rw [abs_of_nonneg (by linarith)]
    linarith

/-- C6 witness: the hypotheses of `p_manual_vs_library` instantiated at the
concrete symmetric CDF `demoCdf`, whose value at the positive statistic
3/sqrt 2 ≥ 2 is at least 1/2 + 1/3. -/
theorem p_manual_vs_library_witness :
    (∀ a b : List ℝ, (ttest_ind demoCdf a b).1 = t_manual a b) ∧
    p_manual demoCdf [100, 200, 300] [150, 250, 350, 450] =
      (ttest_ind demoCdf [100, 200, 300] [150, 250, 350, 450]).2 ∧
    1 / 250 ≤ |p_manual demoCdf [3, 5] [0, 2] -
      (ttest_ind demoCdf [3, 5] [0, 2]).2| := by
  apply p_manual_vs_library demoCdf demoCdf_symm
  have hs : Real.sqrt 2 ≤ 3 / 2 := by
    nlinarith [Real.sq_sqrt (show (0:ℝ) ≤ 2 by norm_num), Real.sqrt_nonneg 2]
  have hspos : 0 < Real.sqrt 2 := Real.sqrt_pos.mpr (by norm_num)
  have h2le : (2:ℝ) ≤ t_manual [3, 5] [0, 2] := by
    rw [t_manual_ex, le_div_iff hspos]
    nlinarith
  have hbr : boundedRatio 2 ≤ boundedRatio (t_manual [3, 5] [0, 2]) :=
    boundedRatio_strictMono.monotone h2le
  have hbr2 : boundedRatio 2 = 2 / 3 := by
    norm_num [boundedRatio]
  unfold demoCdf
  rw [hbr2] at hbr
  linarith

end Springboard
